import Mathlib

/-!
Verification of the blockhost-engine fund-orchestration core.

Shallow embedding of the fund-manager module (withdrawal, distribution,
gas management, cycle scheduling) and of the `ab` addressbook CLI.
Machine integers of the source (JS `bigint` token amounts in smallest
units, wei) are embedded as `Int`; JS `bigint` division truncates toward
zero, which is `Int.tdiv`.  USD valuations computed with JS floating
point in the source are abstracted as `ℚ` parameters where only their
comparison against a threshold matters.
-/

namespace Blockhost

/-- JS `bigint` division: truncation toward zero. -/
def bdiv (a b : Int) : Int := Int.tdiv a b

/-- The all-zero EVM address (`ethers.ZeroAddress`). -/
def ZeroAddress : String := "0x0000000000000000000000000000000000000000"

/-! ## Addressbook (src/src/fund-manager/addressbook.ts, src/src/ab) -/

/-- An addressbook entry: `{ address, keyfile? }`. -/
structure ABEntry where
  address : String
  keyfile : Option String
deriving DecidableEq, Repr

/-- The addressbook `Record<string, Entry>`, embedded as an association
list from role name to entry. -/
abbrev Addressbook := List (String × ABEntry)

/-- Keyfile path used for the generated hot wallet
(`/etc/blockhost/hot.key` in addressbook.ts). -/
def HOT_KEY_PATH : String := "/etc/blockhost/hot.key"

/-- `ensureHotWallet` (addressbook.ts lines 108-124): if `book.hot`
exists return the book unchanged; otherwise request key generation from
the root agent (the generated address is the `generatedAddress`
parameter), add the entry, persist, and return.  The second component
counts key-generation requests issued to the root agent. -/
def ensureHotWallet (generatedAddress : String) (book : Addressbook) :
    Addressbook × Nat :=
  match book.lookup "hot" with
  | some _ => (book, 0)
  | none =>
      (book ++ [("hot", ⟨generatedAddress, some HOT_KEY_PATH⟩)], 1)

/-- A JS value holding either a plain addressbook or an un-awaited
`Promise` that will later resolve to one. -/
inductive JsBook where
  | resolved (b : Addressbook)
  | pending (b : Addressbook)
deriving Repr

/-- Property access `book.hot` as performed by the withdrawal and
distribution steps.  On a `Promise` object the `hot` property is
`undefined`. -/
def hotEntry : JsBook → Option ABEntry
  | JsBook.resolved b => b.lookup "hot"
  | JsBook.pending _ => none

/-- index.ts line 91: `book = ensureHotWallet(book);`.  `ensureHotWallet`
is `async` but the call is not awaited, so the value assigned to `book`
for the rest of the cycle is the pending promise, not the addressbook. -/
def fundCycleBookAfterEnsure (generatedAddress : String) (book : Addressbook) :
    JsBook :=
  JsBook.pending (ensureHotWallet generatedAddress book).1

/-! ## ab CLI mutation commands (src/src/ab, src/unnamed/part_002..004) -/

/-- Reserved role names (`IMMUTABLE_ROLES` in the ab CLI entry point). -/
def IMMUTABLE_ROLES : List String := ["server", "admin", "hot", "dev", "broker"]

/-- Outcome of an ab CLI command: `exitCode = some c` models
`process.exit(c)`; `book` is the resulting addressbook on disk;
`genRequests` counts key-generation requests issued. -/
structure CmdOutcome where
  exitCode : Option Nat
  book : Addressbook
  genRequests : Nat
deriving DecidableEq, Repr

/-- `ab add <name> <0xaddress>` (commands/add.ts), with the two
arguments already split out and `ethers.isAddress` abstracted as the
`isValidAddress` flag. -/
def addCommand (name address : String) (isValidAddress : Bool)
    (book : Addressbook) : CmdOutcome :=
  if name ∈ IMMUTABLE_ROLES then ⟨some 1, book, 0⟩
  else if !isValidAddress then ⟨some 1, book, 0⟩
  else if (book.lookup name).isSome then ⟨some 1, book, 0⟩
  else ⟨none, book ++ [(name, ⟨address, none⟩)], 0⟩

/-- `ab up <name> <0xaddress>` (src/unnamed/part_003). -/
def upCommand (name address : String) (isValidAddress : Bool)
    (book : Addressbook) : CmdOutcome :=
  if name ∈ IMMUTABLE_ROLES then ⟨some 1, book, 0⟩
  else if !isValidAddress then ⟨some 1, book, 0⟩
  else if (book.lookup name).isNone then ⟨some 1, book, 0⟩
  else
    ⟨none,
     book.map (fun p => if p.1 = name then (p.1, ⟨address, p.2.keyfile⟩) else p),
     0⟩

/-- `ab new <name>` (src/src/ab/commands/new.ts): key generation and
addressbook registration are delegated to the root agent, which performs
them atomically; the resulting on-disk book gains the generated entry
with its keyfile under `/etc/blockhost/<name>.key`. -/
def newCommand (name generatedAddress : String) (book : Addressbook) :
    CmdOutcome :=
  if name ∈ IMMUTABLE_ROLES then ⟨some 1, book, 0⟩
  else if (book.lookup name).isSome then ⟨some 1, book, 0⟩
  else
    ⟨none,
     book ++ [(name, ⟨generatedAddress, some ("/etc/blockhost/" ++ name ++ ".key")⟩)],
     1⟩

/-- Modelled from the spec: the body of `delCommand` (`ab del <name>`)
is not present under src/ (only its import in the ab CLI entry point,
src/unnamed/part_002).  Per spec sections 4.1 and 8, mutation operations
reject the fixed immutable role names unconditionally with an error and
never silently succeed; otherwise the entry is deleted. -/
def delCommand (name : String) (book : Addressbook) : CmdOutcome :=
  if name ∈ IMMUTABLE_ROLES then ⟨some 1, book, 0⟩
  else if (book.lookup name).isNone then ⟨some 1, book, 0⟩
  else ⟨none, book.filter (fun p => p.1 ≠ name), 0⟩

/-! ## Withdrawal step (src/src/fund-manager/withdrawal.ts) -/

/-- A payment method as read from the subscription contract: the token
address and the active flag (the other returned fields are unused by the
withdrawal step). -/
structure PaymentMethod where
  tokenAddress : String
  active : Bool
deriving DecidableEq, Repr

/-- The token-collection loop of `withdrawFromContract` (lines 57-69):
walk the payment methods, skip inactive ones, and de-duplicate by
lowercased token address (`seen` is the set of lowercased addresses
already taken). -/
def collectTokens : List PaymentMethod → List String → List String
  | [], _ => []
  | pm :: rest, seen =>
    if !pm.active then collectTokens rest seen
    else if pm.tokenAddress.toLower ∈ seen then collectTokens rest seen
    else pm.tokenAddress :: collectTokens rest (pm.tokenAddress.toLower :: seen)

/-- The per-token loop of `withdrawFromContract` (lines 72-110): a token
with zero contract balance is skipped; a token whose computed USD value
is strictly below the configured threshold is skipped; otherwise
`withdrawFunds(token, hot)` is invoked.  Returns the tokens for which
the withdraw action is invoked, in order.  `bal` is the contract's
balance of each token and `usd` its computed USD value. -/
def withdrawActions (bal : String → Int) (usd : String → ℚ) (minUsd : ℚ) :
    List String → List String
  | [] => []
  | t :: rest =>
    if bal t = 0 then withdrawActions bal usd minUsd rest
    else if usd t < minUsd then withdrawActions bal usd minUsd rest
    else t :: withdrawActions bal usd minUsd rest

/-- `withdrawFromContract` (withdrawal.ts lines 21-111): returns the
list of tokens whose balances are withdrawn to the hot wallet.
`serverAvailable` models `resolveWallet("server", ...)` succeeding and
`hotConfigured` models `book.hot?.address` being present. -/
def withdrawFromContract (serverAvailable hotConfigured : Bool)
    (pms : List PaymentMethod) (bal : String → Int) (usd : String → ℚ)
    (minUsd : ℚ) : List String :=
  if !serverAvailable then []
  else if !hotConfigured then []
  else if pms.isEmpty then []
  else withdrawActions bal usd minUsd (collectTokens pms [])

/-! ## Distribution step 2: gas top-up (src/unnamed/part_009 lines 110-142) -/

/-- `ethers.parseEther("0.0005")` — the hot-wallet gas floor in wei. -/
def gasFloorWei : Int := 500000000000000

/-- `ethers.parseEther("0.001")` — the fixed top-up amount in wei. -/
def gasTopUpWei : Int := 1000000000000000

/-- `topUpHotWalletGas`: returns the amount of wei sent from the server
wallet to the hot wallet (`none` when no transfer is made). -/
def topUpHotWalletGas (hotAddress : Option String) (hotBalance : Int)
    (serverAvailable : Bool) (serverBalance : Int) : Option Int :=
  match hotAddress with
  | none => none
  | some _ =>
    if hotBalance ≥ gasFloorWei then none
    else if !serverAvailable then none
    else if serverBalance < gasTopUpWei * 2 then none
    else some gasTopUpWei

/-! ## Distribution step 3: server stablecoin buffer (part_009 lines 148-203) -/

/-- `topUpServerStablecoinBuffer`: returns the stablecoin amount (in
smallest units) transferred from the hot wallet to the server wallet,
`none` when no transfer is made.  `stablecoin` is the result of
`getPrimaryStablecoin` (`none` when the call throws), `bufferTarget` is
`parseUnits(config.server_stablecoin_buffer_usd, decimals)`. -/
def topUpServerStablecoinBuffer (serverAddress : Option String)
    (stablecoin : Option String) (serverStableBalance : Int)
    (bufferTarget : Int) (hotAvailable : Bool) (hotStableBalance : Int) :
    Option Int :=
  match serverAddress with
  | none => none
  | some _ =>
    match stablecoin with
    | none => none
    | some sc =>
      if sc = ZeroAddress then none
      else if serverStableBalance ≥ bufferTarget then none
      else if !hotAvailable then none
      else if hotStableBalance < bufferTarget - serverStableBalance then none
      else some (bufferTarget - serverStableBalance)

/-! ## Distribution step 4: revenue shares (part_009 lines 208-267) -/

/-- A revenue-share recipient.  `percent_bp` is the basis-point integer
`Math.round(recipient.percent * 100)` that the source computes from the
configured floating-point percentage. -/
structure Recipient where
  role : String
  percent_bp : Int
deriving DecidableEq, Repr

/-- The revenue-share configuration.  `total_percent_bp` is
`Math.round(revenueConfig.total_percent * 100)`. -/
structure RevenueShareConfig where
  enabled : Bool
  total_percent_bp : Int
  recipients : List Recipient
deriving DecidableEq, Repr

/-- `totalShareAmount = (balance * round(total_percent*100)) / 10000n`
(part_009 lines 231-232). -/
def totalShareAmount (balance totalBp : Int) : Int :=
  bdiv (balance * totalBp) 10000

/-- The share of a non-last recipient (part_009 lines 249-250):
`(totalShareAmount * round(percent*100)) / round(total_percent*100)`. -/
def nominalShare (totalShare totalBp : Int) (r : Recipient) : Int :=
  bdiv (totalShare * r.percent_bp) totalBp

/-- The recipient loop of `distributeRevenueShares` (lines 238-265) for
one token: walk the recipients in order with the running `distributed`
total; an unresolvable recipient role is skipped (`continue`) before its
share is computed; the last listed recipient gets
`totalShare - distributed`, every other recipient gets
`totalShare * round(percent*100) / round(total_percent*100)`.
Returns the computed shares in order. -/
def computeShares (resolve : String → Bool) (totalShare totalBp : Int) :
    List Recipient → Int → List Int
  | [], _ => []
  | r :: rest, distributed =>
    if resolve r.role then
      if rest = [] then
        [totalShare - distributed]
      else
        nominalShare totalShare totalBp r ::
          computeShares resolve totalShare totalBp rest
            (distributed + nominalShare totalShare totalBp r)
    else
      computeShares resolve totalShare totalBp rest distributed

/-- Per-token distribution of `distributeRevenueShares` (lines 227-266):
a zero balance is skipped, a zero total share is skipped; otherwise the
recipient loop runs with `distributed = 0`.  `resolve` models
`resolveAddress(role, book) !== null`. -/
def tokenShares (resolve : String → Bool) (cfg : RevenueShareConfig)
    (balance : Int) : List Int :=
  if balance = 0 then []
  else if totalShareAmount balance cfg.total_percent_bp = 0 then []
  else
    computeShares resolve (totalShareAmount balance cfg.total_percent_bp)
      cfg.total_percent_bp cfg.recipients 0

/-- `distributeRevenueShares` (lines 208-267): nothing is distributed
when disabled or when no recipients are configured; otherwise each token
balance held by the hot wallet is distributed independently. -/
def distributeRevenueShares (resolve : String → Bool)
    (cfg : RevenueShareConfig) (balances : List Int) : List (List Int) :=
  if !cfg.enabled then []
  else if cfg.recipients = [] then []
  else balances.map (tokenShares resolve cfg)

/-! ## Gas monitor (src/src/fund-manager/gas-manager.ts) -/

/-- Per-chain pool configuration (src/unnamed/part_009 lines 12-34). -/
structure ChainConfig where
  router : String
  weth : String
  usdc : String
  usdc_weth_pair : String
deriving DecidableEq, Repr

/-- Externally visible actions of `checkAndSwapGas`, in program order:
`errorLog` is a `console.error` report, the others are the chain reads
and writes the spec's no-op property is about. -/
inductive GasAction where
  | errorLog
  | readEthBalance
  | readTokenBalance
  | priceQuery
  | approve
  | quote
  | swap
deriving DecidableEq, Repr

/-- `checkAndSwapGas` (gas-manager.ts lines 48-163) as the trace of
actions it performs.  `serverAvailable` models `resolveWallet("server")`
succeeding, `chainConfig` the result of `getChainConfig(chainId)`;
USD quantities computed with floats in the source are abstracted as `ℚ`
inputs; `allowance` is the router's current USDC allowance. -/
def checkAndSwapGas (serverAvailable : Bool)
    (chainConfig : Option ChainConfig) (ethBalanceUsd gasLowThresholdUsd : ℚ)
    (usdcBalance swapAmountUsdc allowance : Int) : List GasAction :=
  if !serverAvailable then [GasAction.errorLog]
  else
    match chainConfig with
    | none => [GasAction.errorLog]
    | some c =>
      if c.usdc_weth_pair = ZeroAddress then []
      else
        [GasAction.readEthBalance, GasAction.readTokenBalance,
         GasAction.priceQuery] ++
        (if ethBalanceUsd ≥ gasLowThresholdUsd then []
         else
           [GasAction.readTokenBalance] ++
           (if usdcBalance < swapAmountUsdc then []
            else
              (if allowance < swapAmountUsdc then [GasAction.approve] else []) ++
              [GasAction.quote, GasAction.swap]))

/-! ## Cycle scheduler (src/src/fund-manager/index.ts) -/

/-- The scheduler's mutable state: the two in-memory single-flight
guards and the two persisted last-run timestamps (state.ts). -/
structure FundState where
  fundCycleInProgress : Bool
  gasCheckInProgress : Bool
  last_fund_cycle : Int
  last_gas_check : Int
deriving DecidableEq, Repr

/-- What one scheduler entry point invocation produces: the value or
exception observed by the caller, whether the guarded body (the
withdrawal/distribution sequence, resp. the gas check) was executed, and
the state afterwards. -/
structure CycleOutcome where
  result : Except String Unit
  bodyRan : Bool
  state : FundState
deriving Repr

/-- `runFundCycle` (index.ts lines 72-116): bail out if the guard is
set; otherwise set the guard and run the try block — early returns when
`BLOCKHOST_CONTRACT` is unset (`contractSet`) or the addressbook is
empty (`bookNonEmpty`), then the five steps whose combined outcome is
the abstract `body` (which may throw).  The catch block swallows any
error; the finally block persists `last_fund_cycle = now` and clears the
guard. -/
def runFundCycle (contractSet bookNonEmpty : Bool)
    (body : Except String Unit) (now : Int) (s : FundState) : CycleOutcome :=
  if s.fundCycleInProgress then ⟨Except.ok (), false, s⟩
  else
    let tryOutcome : Except String Unit :=
      if !contractSet then Except.ok ()
      else if !bookNonEmpty then Except.ok ()
      else body
    let caught : Except String Unit :=
      match tryOutcome with
      | Except.ok _ => Except.ok ()
      | Except.error _ => Except.ok ()
    ⟨caught, contractSet && bookNonEmpty,
     { s with last_fund_cycle := now, fundCycleInProgress := false }⟩

/-- `runGasCheck` (index.ts lines 121-136): same shape with the
`gasCheckInProgress` guard, the empty-addressbook early return, the
`checkAndSwapGas` body, and `last_gas_check` persisted in the finally
block. -/
def runGasCheck (bookNonEmpty : Bool) (body : Except String Unit)
    (now : Int) (s : FundState) : CycleOutcome :=
  if s.gasCheckInProgress then ⟨Except.ok (), false, s⟩
  else
    let tryOutcome : Except String Unit :=
      if !bookNonEmpty then Except.ok ()
      else body
    let caught : Except String Unit :=
      match tryOutcome with
      | Except.ok _ => Except.ok ()
      | Except.error _ => Except.ok ()
    ⟨caught, bookNonEmpty,
     { s with last_gas_check := now, gasCheckInProgress := false }⟩

/-- Sample revenue-share configuration from the spec's skewed example:
three recipients at 33% each against a 99% total. -/
def sampleShareConfig : RevenueShareConfig :=
  ⟨true, 9900, [⟨"dev", 3300⟩, ⟨"broker", 3300⟩, ⟨"admin", 3300⟩]⟩

/-- Sample resolver that knows every role. -/
def allRoles : String → Bool := fun _ => true

/-- Sample resolver that does not know the `broker` role. -/
def noBroker : String → Bool := fun s => !(s == "broker")

/-- The Sepolia entry of `KNOWN_CHAINS` (src/unnamed/part_009 lines
27-34): its `usdc_weth_pair` is the zero address. -/
def sepoliaChainConfig : ChainConfig :=
  ⟨"0xeE567Fe1712Faf6149d80dA1E6934E354124CfE3",
   "0x7b79995e5f793A07Bc00c21412e50Ecae098E7f9",
   "0x1c7D4B196Cb0C7B01d743Fbc6116a902379C7238",
   "0x0000000000000000000000000000000000000000"⟩

/-! ## Helper lemmas -/

/-- Single-step unfolding of the recipient loop. -/
theorem computeShares_cons (resolve : String → Bool) (T B : Int)
    (r : Recipient) (rest : List Recipient) (d : Int) :
    computeShares resolve T B (r :: rest) d =
      if resolve r.role then
        if rest = [] then [T - d]
        else
          nominalShare T B r ::
            computeShares resolve T B rest (d + nominalShare T B r)
      else computeShares resolve T B rest d := rfl

/-- When every recipient in the list resolves, the recipient loop
produces the nominal share for each recipient but the last, and
`totalShare - distributed` for the last. -/
theorem computeShares_resolved (resolve : String → Bool) (T B : Int) :
    ∀ (l : List Recipient) (d : Int),
      (∀ r ∈ l, resolve r.role = true) → l ≠ [] →
      computeShares resolve T B l d =
        (l.dropLast.map (nominalShare T B)) ++
          [T - (d + (l.dropLast.map (nominalShare T B)).sum)]
  | [], _, _, hne => absurd rfl hne
  | [r], d, hres, _ => by
      simp [computeShares, hres r (List.mem_cons_self r [])]
  | r :: s :: rest, d, hres, _ => by
      have hr : resolve r.role = true := hres r (List.mem_cons_self r _)
      have ih := computeShares_resolved resolve T B (s :: rest)
        (d + nominalShare T B r)
        (fun x hx => hres x (List.mem_cons_of_mem r hx))
        (List.cons_ne_nil s rest)
      rw [computeShares_cons, if_pos hr, if_neg (List.cons_ne_nil s rest), ih,
        List.dropLast_cons_of_ne_nil (List.cons_ne_nil s rest)]
      simp [add_assoc]

/-- A recipient whose role does not resolve is skipped without touching
the running `distributed` total: the loop behaves as if the recipient
were not listed, provided the skipped recipient is not the last one. -/
theorem computeShares_skip (resolve : String → Bool) (T B : Int)
    (rj : Recipient) (hskip : resolve rj.role = false) :
    ∀ (pre post : List Recipient) (d : Int), post ≠ [] →
      computeShares resolve T B (pre ++ rj :: post) d =
        computeShares resolve T B (pre ++ post) d
  | [], post, d, _ => by
      rw [List.nil_append, List.nil_append, computeShares_cons,
        if_neg (by simp [hskip])]
  | p :: pre, post, d, hpost => by
      have h₁ : pre ++ rj :: post ≠ [] := by simp
      have h₂ : pre ++ post ≠ [] := by simp [List.append_eq_nil, hpost]
      rw [List.cons_append, List.cons_append, computeShares_cons,
        computeShares_cons]
      by_cases hp : resolve p.role = true
      · rw [if_pos hp, if_pos hp, if_neg h₁, if_neg h₂,
          computeShares_skip resolve T B rj hskip pre post _ hpost]
      · rw [if_neg hp, if_neg hp,
          computeShares_skip resolve T B rj hskip pre post _ hpost]

/-- `List.lookup` skips over a prefix in which the key does not occur. -/
theorem lookup_append_of_none {α β : Type} [BEq α] (l₁ l₂ : List (α × β))
    (k : α) (h : l₁.lookup k = none) : (l₁ ++ l₂).lookup k = l₂.lookup k := by
  induction l₁ with
  | nil => simp
  | cons p l ih =>
      rw [List.cons_append]
      cases hk : k == p.1 with
      | true =>
          exfalso
          rw [show p = (p.1, p.2) from rfl, List.lookup_cons, hk] at h
          exact Option.noConfusion h
      | false =>
          rw [show p = (p.1, p.2) from rfl, List.lookup_cons, hk] at h ⊢
          exact ih h

/-! ## Claim theorems -/

/-- C1: for an enabled configuration with at least one recipient, all
recipients resolvable and percentages summing to the total, and a
non-zero balance, the per-token distribution computes
`totalShare = bdiv (balance * round(totalPercent*100)) 10000`, gives
every non-last recipient `bdiv (totalShare * round(percent*100))
(round(totalPercent*100))`, gives the last recipient the total minus
what was already distributed, and the computed shares sum to
`totalShare` exactly. -/
theorem revenueShare_sum_exact (resolve : String → Bool)
    (cfg : RevenueShareConfig) (balance : Int)
    (hen : cfg.enabled = true) (hne : cfg.recipients ≠ [])
    (hres : ∀ r ∈ cfg.recipients, resolve r.role = true)
    (_hsum : (cfg.recipients.map Recipient.percent_bp).sum = cfg.total_percent_bp)
    (hbal : balance ≠ 0) :
    distributeRevenueShares resolve cfg [balance] =
      [tokenShares resolve cfg balance] ∧
    (tokenShares resolve cfg balance).sum =
      totalShareAmount balance cfg.total_percent_bp ∧
    (totalShareAmount balance cfg.total_percent_bp ≠ 0 →
      tokenShares resolve cfg balance =
        (cfg.recipients.dropLast.map
           (nominalShare (totalShareAmount balance cfg.total_percent_bp)
             cfg.total_percent_bp)) ++
          [totalShareAmount balance cfg.total_percent_bp -
            (cfg.recipients.dropLast.map
               (nominalShare (totalShareAmount balance cfg.total_percent_bp)
                 cfg.total_percent_bp)).sum]) := by
  refine ⟨by simp [distributeRevenueShares, hen, hne], ?_⟩
  by_cases hT : totalShareAmount balance cfg.total_percent_bp = 0
  · constructor
    · simp [tokenShares, hbal, hT]
    · intro h; exact absurd hT h
  · have hstruct := computeShares_resolved resolve
      (totalShareAmount balance cfg.total_percent_bp) cfg.total_percent_bp
      cfg.recipients 0 hres hne
    have htok : tokenShares resolve cfg balance =
        computeShares resolve (totalShareAmount balance cfg.total_percent_bp)
          cfg.total_percent_bp cfg.recipients 0 := by
      simp [tokenShares, hbal, hT]
    constructor
    · rw [htok, hstruct]
      simp [List.sum_append]
    · intro _
      rw [htok, hstruct]
      simp

/-- C10: when a non-last recipient's role is absent from the addressbook
it is skipped before its share is computed, so the computed shares still
sum to the full total share, and the last listed recipient's remainder
share is larger by exactly the skipped recipient's nominal share. -/
theorem revenueShare_skipped_recipient (resolve resolveAll : String → Bool)
    (cfg : RevenueShareConfig) (balance : Int)
    (pre post : List Recipient) (rj : Recipient)
    (hrec : cfg.recipients = pre ++ rj :: post) (hpost : post ≠ [])
    (hAll : ∀ r ∈ cfg.recipients, resolveAll r.role = true)
    (hskip : resolve rj.role = false)
    (hothers : ∀ r ∈ pre ++ post, resolve r.role = true) :
    (tokenShares resolve cfg balance).sum =
      (tokenShares resolveAll cfg balance).sum ∧
    (tokenShares resolve cfg balance).getLast? =
      (tokenShares resolveAll cfg balance).getLast?.map
        (· + nominalShare (totalShareAmount balance cfg.total_percent_bp)
               cfg.total_percent_bp rj) := by
  by_cases hbal : balance = 0
  · simp [tokenShares, hbal]
  by_cases hT : totalShareAmount balance cfg.total_percent_bp = 0
  · simp [tokenShares, hbal, hT]
  have h₂ : pre ++ post ≠ [] := by simp [List.append_eq_nil, hpost]
  have h₁ : pre ++ rj :: post ≠ [] := by simp
  have hskipEq := computeShares_skip resolve
    (totalShareAmount balance cfg.total_percent_bp) cfg.total_percent_bp rj
    hskip pre post 0 hpost
  have hsk := computeShares_resolved resolve
    (totalShareAmount balance cfg.total_percent_bp) cfg.total_percent_bp
    (pre ++ post) 0 hothers h₂
  have hall := computeShares_resolved resolveAll
    (totalShareAmount balance cfg.total_percent_bp) cfg.total_percent_bp
    (pre ++ rj :: post) 0 (by rw [← hrec]; exact hAll) h₁
  have htokS : tokenShares resolve cfg balance =
      computeShares resolve (totalShareAmount balance cfg.total_percent_bp)
        cfg.total_percent_bp (pre ++ post) 0 := by
    simp [tokenShares, hbal, hT, hrec, hskipEq]
  have htokA : tokenShares resolveAll cfg balance =
      computeShares resolveAll (totalShareAmount balance cfg.total_percent_bp)
        cfg.total_percent_bp (pre ++ rj :: post) 0 := by
    simp [tokenShares, hbal, hT, hrec]
  have hdS : (pre ++ post).dropLast = pre ++ post.dropLast :=
    List.dropLast_append_of_ne_nil pre hpost
  have hdA : (pre ++ rj :: post).dropLast = pre ++ rj :: post.dropLast := by
    rw [List.dropLast_append_of_ne_nil pre (List.cons_ne_nil rj post),
      List.dropLast_cons_of_ne_nil hpost]
  rw [hdS] at hsk
  rw [hdA] at hall
  constructor
  · rw [htokS, htokA, hsk, hall]
    simp only [List.map_append, List.map_cons, List.sum_append, List.sum_cons,
      List.sum_nil, zero_add]
    ring
  · rw [htokS, htokA, hsk, hall, List.getLast?_concat, List.getLast?_concat]
    simp only [Option.map_some', Option.some.injEq, List.map_append,
      List.map_cons, List.sum_append, List.sum_cons, zero_add]
    ring

/-- Witness for C1: the spec's skewed example — three recipients at 33%
each against a 99% total and a balance of 1000: total share 990, shares
330/330/330, summing to 990 exactly. -/
theorem revenueShare_sum_exact_witness :
    distributeRevenueShares allRoles sampleShareConfig [1000] =
      [tokenShares allRoles sampleShareConfig 1000] ∧
    (tokenShares allRoles sampleShareConfig 1000).sum =
      totalShareAmount 1000 sampleShareConfig.total_percent_bp ∧
    (totalShareAmount 1000 sampleShareConfig.total_percent_bp ≠ 0 →
      tokenShares allRoles sampleShareConfig 1000 =
        (sampleShareConfig.recipients.dropLast.map
           (nominalShare (totalShareAmount 1000 sampleShareConfig.total_percent_bp)
             sampleShareConfig.total_percent_bp)) ++
          [totalShareAmount 1000 sampleShareConfig.total_percent_bp -
            (sampleShareConfig.recipients.dropLast.map
               (nominalShare (totalShareAmount 1000 sampleShareConfig.total_percent_bp)
                 sampleShareConfig.total_percent_bp)).sum]) :=
  revenueShare_sum_exact allRoles sampleShareConfig 1000 rfl (by decide)
    (by decide) (by decide) (by decide)

/-- Witness for C10: skipping the middle recipient `broker` leaves the
total distributed unchanged and enlarges the last recipient's share by
broker's nominal share. -/
theorem revenueShare_skipped_recipient_witness :
    (tokenShares noBroker sampleShareConfig 1000).sum =
      (tokenShares allRoles sampleShareConfig 1000).sum ∧
    (tokenShares noBroker sampleShareConfig 1000).getLast? =
      (tokenShares allRoles sampleShareConfig 1000).getLast?.map
        (· + nominalShare (totalShareAmount 1000 sampleShareConfig.total_percent_bp)
               sampleShareConfig.total_percent_bp ⟨"broker", 3300⟩) :=
  revenueShare_skipped_recipient noBroker allRoles sampleShareConfig 1000
    [⟨"dev", 3300⟩] [⟨"admin", 3300⟩] ⟨"broker", 3300⟩ rfl (by decide)
    (by decide) (by decide) (by decide)

/-- C2 counterexample: with the hot wallet below the gas floor and the
server wallet holding exactly twice the top-up amount, the code makes
the transfer even though it leaves the server wallet with only one
top-up amount — not at least twice that amount — remaining afterwards. -/
theorem gas_topup_margin_counterexample :
    topUpHotWalletGas (some "0xhot") 0 true (gasTopUpWei * 2) =
      some gasTopUpWei ∧
    ¬(gasTopUpWei * 2 - gasTopUpWei ≥ gasTopUpWei * 2) := by
  constructor
  · decide
  · decide

/-- C2 (amended): when the hot balance is below the floor and the server
wallet is available, the fixed top-up is sent iff the server balance
before sending is at least twice the top-up amount — equivalently, iff
sending leaves at least one top-up amount remaining — and otherwise no
transfer is made. -/
theorem gas_topup_margin (hot : String) (hotBalance serverBalance : Int)
    (hlow : hotBalance < gasFloorWei) :
    (topUpHotWalletGas (some hot) hotBalance true serverBalance =
        some gasTopUpWei ↔ gasTopUpWei * 2 ≤ serverBalance) ∧
    (serverBalance < gasTopUpWei * 2 →
       topUpHotWalletGas (some hot) hotBalance true serverBalance = none) ∧
    (∀ a, topUpHotWalletGas (some hot) hotBalance true serverBalance = some a →
       a = gasTopUpWei ∧ gasTopUpWei ≤ serverBalance - a) := by
  have h1 : ¬(hotBalance ≥ gasFloorWei) := not_le.mpr hlow
  by_cases hs : serverBalance < gasTopUpWei * 2
  · have e : topUpHotWalletGas (some hot) hotBalance true serverBalance =
        none := by
      simp [topUpHotWalletGas, h1, hs]
    refine ⟨?_, fun _ => e, ?_⟩
    · rw [e]
      constructor
      · intro h; cases h
      · intro h; exact absurd h (not_le.mpr hs)
    · intro a ha
      rw [e] at ha
      cases ha
  · have e : topUpHotWalletGas (some hot) hotBalance true serverBalance =
        some gasTopUpWei := by
      simp [topUpHotWalletGas, h1, hs]
    refine ⟨?_, ?_, ?_⟩
    · rw [e]
      exact iff_of_true rfl (not_lt.mp hs)
    · intro h; exact absurd h hs
    · intro a ha
      rw [e] at ha
      injection ha with hh
      refine ⟨hh.symm, ?_⟩
      have h2 : gasTopUpWei * 2 ≤ serverBalance := not_lt.mp hs
      rw [← hh.symm]
      linarith

/-- Witness for the amended C2: server balance of three top-up amounts
allows the transfer. -/
theorem gas_topup_margin_witness :
    (topUpHotWalletGas (some "0xhot") 0 true 3000000000000000 =
        some gasTopUpWei ↔ gasTopUpWei * 2 ≤ (3000000000000000 : Int)) ∧
    ((3000000000000000 : Int) < gasTopUpWei * 2 →
       topUpHotWalletGas (some "0xhot") 0 true 3000000000000000 = none) ∧
    (∀ a, topUpHotWalletGas (some "0xhot") 0 true 3000000000000000 = some a →
       a = gasTopUpWei ∧ gasTopUpWei ≤ 3000000000000000 - a) :=
  gas_topup_margin "0xhot" 0 3000000000000000 (by decide)

/-- Membership in the withdrawal step's action list is exactly: listed,
non-zero balance, and USD value at or above the threshold. -/
theorem mem_withdrawActions (bal : String → Int) (usd : String → ℚ)
    (minUsd : ℚ) :
    ∀ (l : List String) (t : String),
      t ∈ withdrawActions bal usd minUsd l ↔
        t ∈ l ∧ bal t ≠ 0 ∧ minUsd ≤ usd t
  | [], t => by simp [withdrawActions]
  | x :: rest, t => by
      have ih := mem_withdrawActions bal usd minUsd rest t
      simp only [withdrawActions]
      split_ifs with h0 h1
      · rw [ih, List.mem_cons]
        constructor
        · rintro ⟨h, hb, hu⟩; exact ⟨Or.inr h, hb, hu⟩
        · rintro ⟨h | h, hb, hu⟩
          · subst h; exact absurd h0 hb
          · exact ⟨h, hb, hu⟩
      · rw [ih, List.mem_cons]
        constructor
        · rintro ⟨h, hb, hu⟩; exact ⟨Or.inr h, hb, hu⟩
        · rintro ⟨h | h, hb, hu⟩
          · subst h; exact absurd h1 (not_lt.mpr hu)
          · exact ⟨h, hb, hu⟩
      · rw [List.mem_cons, ih, List.mem_cons]
        constructor
        · rintro (h | ⟨h, hb, hu⟩)
          · subst h; exact ⟨Or.inl rfl, h0, not_lt.mp h1⟩
          · exact ⟨Or.inr h, hb, hu⟩
        · rintro ⟨h | h, hb, hu⟩
          · subst h; exact Or.inl rfl
          · exact Or.inr ⟨h, hb, hu⟩

/-- C3: with the server wallet and hot wallet available, the withdrawal
step invokes the contract withdraw action for a token iff it is among
the unique active accepted tokens, the contract's balance of it is
non-zero, and its computed USD value is at or above the configured
minimum-withdrawal threshold. -/
theorem withdraw_iff_threshold (pms : List PaymentMethod)
    (bal : String → Int) (usd : String → ℚ) (minUsd : ℚ) (t : String) :
    t ∈ withdrawFromContract true true pms bal usd minUsd ↔
      t ∈ collectTokens pms [] ∧ bal t ≠ 0 ∧ minUsd ≤ usd t := by
  unfold withdrawFromContract
  by_cases hp : pms.isEmpty
  · have hnil : pms = [] := List.isEmpty_iff.mp hp
    subst hnil
    simp [collectTokens]
  · simp [hp, mem_withdrawActions]

/-- C4: when the single-flight guard is passed, the fund cycle and the
gas check always return without an exception, persist the new last-run
timestamp, and clear the guard — whatever the body does. -/
theorem scheduler_finally_persists (contractSet bookNonEmpty bookG : Bool)
    (bodyF bodyG : Except String Unit) (nowF nowG : Int) (s t : FundState)
    (hF : s.fundCycleInProgress = false) (hG : t.gasCheckInProgress = false) :
    (runFundCycle contractSet bookNonEmpty bodyF nowF s).result =
      Except.ok () ∧
    (runFundCycle contractSet bookNonEmpty bodyF nowF s).state.last_fund_cycle
      = nowF ∧
    (runFundCycle contractSet bookNonEmpty bodyF nowF s).state.fundCycleInProgress
      = false ∧
    (runGasCheck bookG bodyG nowG t).result = Except.ok () ∧
    (runGasCheck bookG bodyG nowG t).state.last_gas_check = nowG ∧
    (runGasCheck bookG bodyG nowG t).state.gasCheckInProgress = false := by
  cases contractSet <;> cases bookNonEmpty <;> cases bookG <;>
    cases bodyF <;> cases bodyG <;>
      simp [runFundCycle, runGasCheck, hF, hG]

/-- Witness for C4: both entry points with throwing bodies still return
normally, persist the timestamps 42 and 7, and clear the guards. -/
theorem scheduler_finally_persists_witness :
    (runFundCycle true true (Except.error "boom") 42
        ⟨false, false, 0, 0⟩).result = Except.ok () ∧
    (runFundCycle true true (Except.error "boom") 42
        ⟨false, false, 0, 0⟩).state.last_fund_cycle = 42 ∧
    (runFundCycle true true (Except.error "boom") 42
        ⟨false, false, 0, 0⟩).state.fundCycleInProgress = false ∧
    (runGasCheck true (Except.error "rpc") 7
        ⟨false, false, 0, 0⟩).result = Except.ok () ∧
    (runGasCheck true (Except.error "rpc") 7
        ⟨false, false, 0, 0⟩).state.last_gas_check = 7 ∧
    (runGasCheck true (Except.error "rpc") 7
        ⟨false, false, 0, 0⟩).state.gasCheckInProgress = false :=
  scheduler_finally_persists true true true (Except.error "boom")
    (Except.error "rpc") 42 7 ⟨false, false, 0, 0⟩ ⟨false, false, 0, 0⟩
    rfl rfl

/-- C5: when the in-memory guard is already set, `runFundCycle` returns
immediately: no withdrawal/distribution step runs and the state
(including the persisted timestamp) is untouched. -/
theorem fundCycle_single_flight (contractSet bookNonEmpty : Bool)
    (body : Except String Unit) (now : Int) (s : FundState)
    (h : s.fundCycleInProgress = true) :
    runFundCycle contractSet bookNonEmpty body now s =
      ⟨Except.ok (), false, s⟩ := by
  simp [runFundCycle, h]

/-- Witness for C5: a second trigger while the guard is set does nothing. -/
theorem fundCycle_single_flight_witness :
    runFundCycle true true (Except.ok ()) 99 ⟨true, false, 0, 0⟩ =
      ⟨Except.ok (), false, ⟨true, false, 0, 0⟩⟩ :=
  fundCycle_single_flight true true (Except.ok ()) 99
    ⟨true, false, 0, 0⟩ rfl

/-- C6: the buffer top-up transfers nothing when the server wallet is at
or above the buffer target; below target it transfers exactly the
shortfall, and only when the hot wallet's stable balance covers the full
shortfall — any transfer made equals the shortfall and never exceeds the
hot wallet's holdings. -/
theorem buffer_topup_exact (server sc : String) (hsc : sc ≠ ZeroAddress)
    (serverStableBalance bufferTarget hotStableBalance : Int) :
    (bufferTarget ≤ serverStableBalance →
       topUpServerStablecoinBuffer (some server) (some sc)
         serverStableBalance bufferTarget true hotStableBalance = none) ∧
    (serverStableBalance < bufferTarget →
       hotStableBalance < bufferTarget - serverStableBalance →
       topUpServerStablecoinBuffer (some server) (some sc)
         serverStableBalance bufferTarget true hotStableBalance = none) ∧
    (serverStableBalance < bufferTarget →
       bufferTarget - serverStableBalance ≤ hotStableBalance →
       topUpServerStablecoinBuffer (some server) (some sc)
         serverStableBalance bufferTarget true hotStableBalance =
         some (bufferTarget - serverStableBalance)) ∧
    (∀ a, topUpServerStablecoinBuffer (some server) (some sc)
        serverStableBalance bufferTarget true hotStableBalance = some a →
       a = bufferTarget - serverStableBalance ∧ a ≤ hotStableBalance) := by
  refine ⟨?_, ?_, ?_, ?_⟩
  · intro h
    simp [topUpServerStablecoinBuffer, hsc, h]
  · intro h1 h2
    simp [topUpServerStablecoinBuffer, hsc, not_le.mpr h1, h2]
  · intro h1 h2
    simp [topUpServerStablecoinBuffer, hsc, not_le.mpr h1, not_lt.mpr h2]
  · intro a ha
    by_cases h1 : serverStableBalance ≥ bufferTarget
    · simp [topUpServerStablecoinBuffer, hsc, h1] at ha
    · by_cases h2 : hotStableBalance < bufferTarget - serverStableBalance
      · simp [topUpServerStablecoinBuffer, hsc, h1, h2] at ha
      · simp [topUpServerStablecoinBuffer, hsc, h1, h2] at ha
        exact ⟨ha.symm, by omega⟩

/-- Witness for C6: the spec scenario — hot holds 500, target 50, server
already holds 80: no transfer. -/
theorem buffer_topup_exact_witness :
    topUpServerStablecoinBuffer (some "0xserver") (some "0xusdc") 80 50
      true 500 = none :=
  (buffer_topup_exact "0xserver" "0xusdc" (by decide) 80 50 500).1
    (by decide)

/-- C7: whenever the resolved chain configuration's stable/native pair
address is the zero address, the gas monitor performs no balance read,
price query, approval, quote, or swap, and with the server wallet
available it performs no action at all (in particular it reports no
error). -/
theorem gasMonitor_zero_pair_noop (serverAvailable : Bool) (c : ChainConfig)
    (hpair : c.usdc_weth_pair = ZeroAddress) (ethUsd thr : ℚ)
    (usdcBalance swapAmount allowance : Int) :
    (serverAvailable = true →
       checkAndSwapGas serverAvailable (some c) ethUsd thr usdcBalance
         swapAmount allowance = []) ∧
    (∀ a ∈ checkAndSwapGas serverAvailable (some c) ethUsd thr usdcBalance
        swapAmount allowance, a = GasAction.errorLog) := by
  cases serverAvailable <;> simp [checkAndSwapGas, hpair]

/-- Witness for C7: the Sepolia chain configuration, whose pair address
is the zero address, yields an empty action trace. -/
theorem gasMonitor_zero_pair_noop_witness :
    checkAndSwapGas true (some sepoliaChainConfig) 0 100 0 0 0 = [] :=
  (gasMonitor_zero_pair_noop true sepoliaChainConfig rfl 0 100 0 0 0).1 rfl

/-- C8: `ensureHotWallet` itself is idempotent — an existing hot entry
is returned unchanged with no key-generation request, and a missing one
triggers exactly one generation whose entry is persisted in the returned
book.  But because index.ts line 91 assigns the un-awaited promise to
`book`, the book the fund cycle hands to the withdrawal step exposes no
`hot` entry at all: the hot wallet is not visible to the first (or any)
withdrawal in that cycle. -/
theorem ensureHotWallet_unawaited (g : String) (b : Addressbook) :
    hotEntry (fundCycleBookAfterEnsure g b) = none ∧
    (ensureHotWallet g b).2 =
      (if (b.lookup "hot").isSome then 0 else 1) ∧
    (ensureHotWallet g b).1 =
      (if (b.lookup "hot").isSome then b
       else b ++ [("hot", ⟨g, some HOT_KEY_PATH⟩)]) ∧
    (ensureHotWallet g b).1.lookup "hot" =
      some ((b.lookup "hot").getD ⟨g, some HOT_KEY_PATH⟩) := by
  cases h : b.lookup "hot" with
  | some e =>
      simp [hotEntry, fundCycleBookAfterEnsure, ensureHotWallet, h]
  | none =>
      have hl : (b ++ [("hot", (⟨g, some HOT_KEY_PATH⟩ : ABEntry))]).lookup
          "hot" = some ⟨g, some HOT_KEY_PATH⟩ := by
        rw [lookup_append_of_none b _ _ h]
        simp [List.lookup]
      simp [hotEntry, fundCycleBookAfterEnsure, ensureHotWallet, h, hl]

/-- C9: every immutable role name is rejected by all four addressbook
mutation commands with exit code 1, the addressbook unchanged, and no
key-generation request issued. -/
theorem immutable_roles_rejected (name : String)
    (h : name ∈ IMMUTABLE_ROLES) (address g : String) (valid : Bool)
    (book : Addressbook) :
    addCommand name address valid book = ⟨some 1, book, 0⟩ ∧
    upCommand name address valid book = ⟨some 1, book, 0⟩ ∧
    newCommand name g book = ⟨some 1, book, 0⟩ ∧
    delCommand name book = ⟨some 1, book, 0⟩ := by
  refine ⟨?_, ?_, ?_, ?_⟩ <;>
    simp [addCommand, upCommand, newCommand, delCommand, h]

/-- Witness for C9: the reserved role `server` is rejected by all four
commands on an empty addressbook. -/
theorem immutable_roles_rejected_witness :
    addCommand "server" "0x1234" true [] = ⟨some 1, [], 0⟩ ∧
    upCommand "server" "0x1234" true [] = ⟨some 1, [], 0⟩ ∧
    newCommand "server" "0xgen" [] = ⟨some 1, [], 0⟩ ∧
    delCommand "server" [] = ⟨some 1, [], 0⟩ :=
  immutable_roles_rejected "server" (by decide) "0x1234" "0xgen" true []

end Blockhost
